import Mathlib

/-!
Verification development for the LangFlowB orchestrator and project
services.  The definitions below are a shallow embedding of the Python
code in src/backend/base/langflow/custom/orchestrator/service.py and
src/backend/base/langflow/custom/projects/service.py: pure functions
become Lean functions, exceptions become Except, database writes become
an explicit operation trace, wall-clock timestamps become an explicit
`now` parameter, and UUIDs become Nat identifiers.
-/

namespace LangFlowB

/-! ## Regex scanner

`re.findall(r"<fence><lang>(.*?)<fence>", text, re.DOTALL)` for a literal
language tag: scan left to right; at each position where the opening
literal matches, capture the shortest run of characters up to the next
closing fence; on a match, scanning resumes after the closing fence; if
no closing fence follows, the regex engine advances one character.
The fence is three backticks; the backtick character is written
`Char.ofNat 96`. -/

def tick : Char := Char.ofNat 96

/-- Literal prefix match on character lists. -/
def begins : List Char → List Char → Bool
  | [], _ => true
  | _ :: _, [] => false
  | p :: ps, c :: cs => p == c && begins ps cs

/-- Whether a character list contains a backtick. -/
def hasTick : List Char → Bool
  | [] => false
  | c :: cs => c == tick || hasTick cs

/-- The ASCII whitespace characters removed by Python str.strip(). -/
def pyIsSpace (c : Char) : Bool :=
  c == ' ' || c == '\t' || c == '\n' || c == '\r' || c == '\x0b' || c == '\x0c'

/-- Python str.strip(): remove leading and trailing whitespace. -/
def pyStripL (l : List Char) : List Char :=
  ((l.dropWhile pyIsSpace).reverse.dropWhile pyIsSpace).reverse

/-- Find the first closing fence: returns (captured text, remainder after
the fence), or none when no fence occurs. -/
def findClose : List Char → Option (List Char × List Char)
  | [] => none
  | c :: cs =>
    if begins [tick, tick, tick] (c :: cs) then some ([], (c :: cs).drop 3)
    else
      match findClose cs with
      | some p => some (c :: p.1, p.2)
      | none => none

/-- Fuelled scanner for the pattern fence-tag-capture-fence; fuel bounds
the number of scan positions, one per character of the text. -/
def findallF (kind : List Char) : Nat → List Char → List (List Char)
  | 0, _ => []
  | _ + 1, [] => []
  | fuel + 1, c :: cs =>
    if begins (tick :: tick :: tick :: kind) (c :: cs) then
      match findClose ((c :: cs).drop (3 + kind.length)) with
      | some p => p.1 :: findallF kind fuel p.2
      | none => findallF kind fuel cs
    else findallF kind fuel cs

/-- All captures of the non-greedy fenced-block pattern for one tag. -/
def findall (kind : List Char) (s : List Char) : List (List Char) :=
  findallF kind s.length s

/-- An extracted artifact record: type tag, file name, content. -/
structure Artifact where
  type : String
  name : String
  content : String
deriving DecidableEq, Repr

/-- One scan of OrchestratorService._extract_artifacts: all fenced blocks
of one language, enumerated from 0, stripped, named label_word_i.ext. -/
def scanKind (label kind word ext : String) (text : List Char) : List Artifact :=
  (findall kind.toList text).enum.map fun p =>
    { type := kind,
      name := label ++ "_" ++ word ++ "_" ++ toString p.1 ++ "." ++ ext,
      content := String.mk (pyStripL p.2) }

/-- OrchestratorService._extract_artifacts: four independent regex scans
over the same text, concatenated jsx, tsx, css, python. -/
def extract_artifacts (step_name : String) (result : String) : List Artifact :=
  scanKind step_name "jsx" "component" "jsx" result.toList
    ++ scanKind step_name "tsx" "component" "tsx" result.toList
    ++ scanKind step_name "css" "styles" "css" result.toList
    ++ scanKind step_name "python" "script" "py" result.toList

/-! ## Orchestrator data model (orchestrator/service.py) -/

/-- StepStatus: status of an orchestration step. -/
inductive StepStatus where
  | PENDING
  | RUNNING
  | SUCCESS
  | FAILED
  | SKIPPED
deriving DecidableEq, Repr

/-- The .value of a StepStatus member (the str enum payload). -/
def StepStatus.value : StepStatus → String
  | .PENDING => "PENDING"
  | .RUNNING => "RUNNING"
  | .SUCCESS => "SUCCESS"
  | .FAILED => "FAILED"
  | .SKIPPED => "SKIPPED"

/-- Python values that can appear in the context dictionaries.  The
orchestrator stores strings, step results (str or None) and artifact
lists; parameters may hold ints and floats (floats are modelled as
rationals). -/
inductive PyVal where
  | vstr (s : String)
  | vint (n : Int)
  | vfloat (q : ℚ)
  | vbool (b : Bool)
  | vnone
  | vartifacts (arts : List Artifact)
deriving DecidableEq

/-- Python str() of an artifact dict, up to string escaping (no claim
depends on the escaping of quotes inside the fields). -/
def pyReprArtifact (a : Artifact) : String :=
  "\x7b\x27type\x27: \x27" ++ a.type ++ "\x27, \x27name\x27: \x27" ++ a.name
    ++ "\x27, \x27content\x27: \x27" ++ a.content ++ "\x27\x7d"

/-- Python str() on the modelled values.  Decimal rendering of floats is
not modelled (no claim depends on it); container rendering follows
Python list-of-dict repr up to string escaping. -/
def pyStr : PyVal → String
  | .vstr s => s
  | .vint n => toString n
  | .vfloat q => toString q
  | .vbool b => if b then "True" else "False"
  | .vnone => "None"
  | .vartifacts arts => "[" ++ String.intercalate ", " (arts.map pyReprArtifact) ++ "]"

/-- An insertion-ordered Python dict with string keys. -/
abbrev Ctx := List (String × PyVal)

/-- Python dict.get(key, default). -/
def pget (m : Ctx) (k : String) (d : PyVal) : PyVal :=
  match m.lookup k with
  | some v => v
  | none => d

/-- Python dict assignment: overwrite in place if the key exists,
otherwise append. -/
def dictSet : Ctx → String → PyVal → Ctx
  | [], k, v => [(k, v)]
  | (k1, v1) :: rest, k, v =>
    if k1 == k then (k1, v) :: rest else (k1, v1) :: dictSet rest k v

/-- StepInput: input for an orchestration step.  model_type is the str
payload of the ModelType enum ("CodeLlama", "CodeGemma", "T5Gemma",
"Assembler", or any other string reaching the service). -/
structure StepInput where
  step_name : String
  model_type : String
  prompt : String
  context : Ctx := []
  parameters : Ctx := []

/-- StepOutput: output from an orchestration step.  execution_time is
wall-clock time, modelled as 0 (no claim depends on its value). -/
structure StepOutput where
  step_name : String
  status : StepStatus
  result : Option String := none
  error : Option String := none
  artifacts : List Artifact := []
  execution_time : ℚ := 0
deriving DecidableEq

/-- OrchestrationPipeline: definition of an orchestration pipeline. -/
structure OrchestrationPipeline where
  project_id : Nat
  name : String
  steps : List StepInput
  global_context : Ctx := []
  metadata : Ctx := []

/-- The hf_manager.generate backend: model name, prompt, max_tokens and
temperature to either a generated string or a raised exception text. -/
abbrev GenFun := String → String → PyVal → PyVal → Except String String

/-! ## Orchestrator operations -/

/-- OrchestratorService._inject_context. -/
def inject_context (prompt : String) (context : Ctx) : String :=
  let context_str :=
    String.intercalate "\n"
      (context.map fun kv => "# " ++ kv.1 ++ ": " ++ (pyStr kv.2).take 200)
  prompt ++ "\n\n## Available Context:\n" ++ context_str

/-- OrchestratorService._execute_code_llama: generate via the backend
when present, swallowing backend exceptions; otherwise (or on a raised
exception) a deterministic placeholder embedding the first 100 prompt
characters. -/
def execute_code_llama (hf : Option GenFun) (prompt : String) (parameters : Ctx) : String :=
  match hf with
  | some g =>
    match g "CodeLlama-7b" prompt (pget parameters "max_tokens" (.vint 512))
        (pget parameters "temperature" (.vfloat (7 / 10))) with
    | .ok r => r
    | .error _ => "[CodeLlama] Placeholder response to: " ++ prompt.take 100 ++ "..."
  | none => "[CodeLlama] Placeholder response to: " ++ prompt.take 100 ++ "..."

/-- OrchestratorService._execute_code_gemma. -/
def execute_code_gemma (hf : Option GenFun) (prompt : String) (parameters : Ctx) : String :=
  match hf with
  | some g =>
    match g "CodeGemma-7b" prompt (pget parameters "max_tokens" (.vint 512))
        (pget parameters "temperature" (.vfloat (7 / 10))) with
    | .ok r => r
    | .error _ => "[CodeGemma] Placeholder response to: " ++ prompt.take 100 ++ "..."
  | none => "[CodeGemma] Placeholder response to: " ++ prompt.take 100 ++ "..."

/-- OrchestratorService._execute_t5_gemma. -/
def execute_t5_gemma (hf : Option GenFun) (prompt : String) (parameters : Ctx) : String :=
  match hf with
  | some g =>
    match g "T5-Gemma" prompt (pget parameters "max_tokens" (.vint 512))
        (pget parameters "temperature" (.vfloat (7 / 10))) with
    | .ok r => r
    | .error _ => "[T5Gemma] Placeholder response to: " ++ prompt.take 100 ++ "..."
  | none => "[T5Gemma] Placeholder response to: " ++ prompt.take 100 ++ "..."

/-- Whether a model_type string is in the closed handler set of the
if/elif dispatch in _execute_step. -/
def knownModel (m : String) : Bool :=
  decide (m = "CodeLlama") || decide (m = "CodeGemma") || decide (m = "T5Gemma")

/-- OrchestratorService._execute_step: inject context, dispatch on the
model type, extract artifacts; an unknown model type raises ValueError
which the surrounding except turns into a FAILED output with no
artifacts. -/
def execute_step (hf : Option GenFun) (step : StepInput) (execution_context : Ctx) :
    StepOutput :=
  let enriched := inject_context step.prompt execution_context
  let routed : Except String String :=
    if step.model_type = "CodeLlama" then .ok (execute_code_llama hf enriched step.parameters)
    else if step.model_type = "CodeGemma" then .ok (execute_code_gemma hf enriched step.parameters)
    else if step.model_type = "T5Gemma" then .ok (execute_t5_gemma hf enriched step.parameters)
    else .error ("Unknown model type: " ++ step.model_type)
  match routed with
  | .ok result =>
    { step_name := step.step_name, status := .SUCCESS, result := some result,
      artifacts := extract_artifacts step.step_name result }
  | .error e =>
    { step_name := step.step_name, status := .FAILED, error := some e }

/-- Result dictionary of _run_assembler. -/
structure AssemblerOutput where
  assembled_code : String
  artifacts : List Artifact
  error : Option String := none
deriving DecidableEq

/-- The per-step section of the assembler prompt (steps enumerated from
1); empty result strings and empty artifact lists are skipped, following
Python truthiness. -/
def stepSection (i : Nat) (o : StepOutput) : List String :=
  ["\n### Step " ++ toString i ++ ": " ++ o.step_name,
   "Status: " ++ o.status.value]
  ++ (match o.result with
      | some r => if r = "" then [] else ["Result:", r.take 500]
      | none => [])
  ++ (if o.artifacts = [] then []
      else "Artifacts:" :: o.artifacts.map (fun a => "- " ++ a.name))

/-- OrchestratorService._build_assembler_prompt. -/
def build_assembler_prompt (step_outputs : List StepOutput) : String :=
  let header : List String :=
    ["# Assembly Task",
     "You are an expert code assembler. Your task is to:",
     "1. Review the following step outputs",
     "2. Combine them into a cohesive, production-ready codebase",
     "3. Follow the \x27Lego pattern\x27: each piece should fit perfectly",
     "4. Clean up, optimize, and polish the code",
     "5. Add proper comments and documentation",
     "",
     "## Step Outputs:"]
  let body : List String := ((step_outputs.enum.map fun p => stepSection (p.1 + 1) p.2).flatten)
  let footer : List String :=
    ["",
     "## Final Assembly Instructions:",
     "1. Create a cohesive structure",
     "2. Remove duplication",
     "3. Ensure type safety (TypeScript/Python)",
     "4. Add proper error handling",
     "5. Include comprehensive documentation",
     "",
     "Provide the final, production-ready code in code blocks."]
  String.intercalate "\n" (header ++ body ++ footer)

/-- OrchestratorService._run_assembler: build the consolidation prompt,
generate with CodeLlama-7b at max_tokens 2048 and temperature 0.3 (or a
placeholder without a backend), extract final artifacts; a raised
generation exception yields empty code, no artifacts and an error
field. -/
def run_assembler (hf : Option GenFun) (_run_id _project_id : Nat)
    (_execution_context : Ctx) (step_outputs : List StepOutput) : AssemblerOutput :=
  let assembler_prompt := build_assembler_prompt step_outputs
  match hf with
  | some g =>
    match g "CodeLlama-7b" assembler_prompt (.vint 2048) (.vfloat (3 / 10)) with
    | .ok assembled_code =>
      { assembled_code := assembled_code,
        artifacts := extract_artifacts "assembler" assembled_code }
    | .error e => { assembled_code := "", artifacts := [], error := some e }
  | none =>
    let assembled_code := "[Assembled Output]\n\n" ++ assembler_prompt
    { assembled_code := assembled_code,
      artifacts := extract_artifacts "assembler" assembled_code }

/-- A persisted database write attempted by the orchestrator (status
update of the run row, or an artifact insert). -/
inductive DbOp where
  | updateRun (run_id : Nat) (status : String)
  | saveArtifact (run_id project_id : Nat) (artifact : Artifact)
deriving DecidableEq

/-- State of the for-loop of execute_pipeline when it finishes or
breaks: outputs so far, database writes, the evolved context, and the
failing step (name, error text) if the loop broke. -/
structure LoopResult where
  outs : List StepOutput
  ops : List DbOp
  ctx : Ctx
  failed : Option (String × String)
deriving DecidableEq

/-- The step loop of execute_pipeline: execute each step in order; on a
FAILED output persist the FAILED status and break; otherwise fold the
result and artifacts into the context and persist the artifacts. -/
def execLoop (hf : Option GenFun) (run_id project_id : Nat) :
    Nat → Ctx → List StepInput → LoopResult
  | _, ctx, [] => { outs := [], ops := [], ctx := ctx, failed := none }
  | i, ctx, step :: rest =>
    let o := execute_step hf step ctx
    if o.status = StepStatus.FAILED then
      { outs := [o], ops := [DbOp.updateRun run_id "FAILED"], ctx := ctx,
        failed := some (step.step_name, match o.error with | some e => e | none => "None") }
    else
      let ctx1 := dictSet ctx ("step_" ++ toString i ++ "_output")
        (match o.result with | some r => .vstr r | none => .vnone)
      let ctx2 := dictSet ctx1 ("step_" ++ toString i ++ "_artifacts") (.vartifacts o.artifacts)
      let r := execLoop hf run_id project_id (i + 1) ctx2 rest
      { outs := o :: r.outs,
        ops := (o.artifacts.map (DbOp.saveArtifact run_id project_id)) ++ r.ops,
        ctx := r.ctx, failed := r.failed }

/-- The results dictionary returned by execute_pipeline, together with
the trace of attempted database writes and the number of assembler
invocations (an observation of the call in the all-success branch). -/
structure ExecOutcome where
  run_id : Nat
  project_id : Nat
  status : String
  steps : List StepOutput
  final_artifacts : List Artifact
  assembled_code : Option String := none
  error : Option String := none
  ops : List DbOp := []
  assembler_calls : Nat := 0
deriving DecidableEq

/-- OrchestratorService.execute_pipeline: persist RUNNING, run the step
loop; if some step failed, report FAILED with the stop message; if all
steps succeeded, invoke the assembler once and report SUCCESS whatever
the assembler returned. -/
def execute_pipeline (hf : Option GenFun) (pipeline : OrchestrationPipeline)
    (run_id : Nat) : ExecOutcome :=
  let r := execLoop hf run_id pipeline.project_id 0 pipeline.global_context pipeline.steps
  match r.failed with
  | some p =>
    { run_id := run_id, project_id := pipeline.project_id, status := "FAILED",
      steps := r.outs, final_artifacts := [],
      error := some ("Pipeline stopped at step \x27" ++ p.1 ++ "\x27: " ++ p.2),
      ops := DbOp.updateRun run_id "RUNNING" :: r.ops, assembler_calls := 0 }
  | none =>
    let assembler_output := run_assembler hf run_id pipeline.project_id r.ctx r.outs
    { run_id := run_id, project_id := pipeline.project_id, status := "SUCCESS",
      steps := r.outs, final_artifacts := assembler_output.artifacts,
      assembled_code := some assembler_output.assembled_code,
      ops := DbOp.updateRun run_id "RUNNING" :: r.ops ++ [DbOp.updateRun run_id "SUCCESS"],
      assembler_calls := 1 }

/-- The summary dictionary of get_run_summary. -/
structure RunSummary where
  run_id : Nat
  total_steps : Nat
  successful_steps : Nat
  failed_steps : Nat
  total_execution_time : ℚ
  steps : List StepOutput
deriving DecidableEq

/-- OrchestratorService.get_step_history: self.step_history.get(run_id, []). -/
def get_step_history (step_history : List (Nat × List StepOutput)) (run_id : Nat) :
    List StepOutput :=
  (step_history.lookup run_id).getD []

/-- OrchestratorService.get_run_summary. -/
def get_run_summary (step_history : List (Nat × List StepOutput)) (run_id : Nat) :
    RunSummary :=
  let history := get_step_history step_history run_id
  { run_id := run_id,
    total_steps := history.length,
    successful_steps := history.countP (fun s => decide (s.status = .SUCCESS)),
    failed_steps := history.countP (fun s => decide (s.status = .FAILED)),
    total_execution_time := (history.map (·.execution_time)).sum,
    steps := history }

/-! ## Persistence layer (projects/service.py and the OrchestrationRun
row updated by OrchestratorService._update_run).  Timestamps are an
explicit `now : Nat`; row identities are Nat. -/

/-- An OrchestrationRun table row. -/
structure RunRow where
  id : Nat
  project_id : Option Nat := none
  status : String := "PENDING"
  steps : List (String × String) := []
  started_at : Option Nat := none
  finished_at : Option Nat := none
deriving DecidableEq, Repr

/-- OrchestratorService._update_run applied to the found row: set the
status, and set finished_at exactly when the new status is SUCCESS or
FAILED (never cleared otherwise). -/
def update_run (now : Nat) (status : String) (run : RunRow) : RunRow :=
  { run with
      status := status
      finished_at :=
        if status = "SUCCESS" ∨ status = "FAILED" then some now else run.finished_at }

/-- Effect on one run row of one orchestrator database write. -/
def applyDbOp (now : Nat) (run : RunRow) : DbOp → RunRow
  | .updateRun rid st => if run.id = rid then update_run now st run else run
  | .saveArtifact _ _ _ => run

/-- Effect on one run row of the orchestrator's write trace, in order. -/
def applyDbOps (now : Nat) (run : RunRow) (ops : List DbOp) : RunRow :=
  ops.foldl (applyDbOp now) run

/-- The run-status writes in a trace, as (run id, new status) pairs. -/
def runUpdates (ops : List DbOp) : List (Nat × String) :=
  ops.filterMap fun op =>
    match op with
    | .updateRun rid st => some (rid, st)
    | .saveArtifact _ _ _ => none

/-- ProjectService.create_run: a new run row; started_at is set only
when the requested initial status is RUNNING, finished_at never. -/
def create_run (now : Nat) (id : Nat) (project_id : Nat)
    (status : String := "PENDING") (steps : List (String × String) := []) : RunRow :=
  { id := id, project_id := some project_id, status := status, steps := steps,
    started_at := if status = "RUNNING" then some now else none,
    finished_at := none }

/-- ProjectService.update_run_status: set the status; set finished_at
exactly when the caller-supplied finished flag is true, independently of
the status value. -/
def update_run_status (now : Nat) (run : RunRow) (status : String)
    (finished : Bool := false) : RunRow :=
  { run with
      status := status
      finished_at := if finished then some now else run.finished_at }

/-- A Project table row. -/
structure ProjectRow where
  id : Nat
  name : String
deriving DecidableEq, Repr

/-- A Context table row. -/
structure ContextRow where
  id : Nat
  project_id : Nat
  key : String
deriving DecidableEq, Repr

/-- A GeneratedArtifact table row. -/
structure ArtifactRow where
  id : Nat
  project_id : Option Nat := none
  run_id : Option Nat := none
  name : String
deriving DecidableEq, Repr

/-- The four related tables. -/
structure Db where
  projects : List ProjectRow := []
  contexts : List ContextRow := []
  runs : List RunRow := []
  artifacts : List ArtifactRow := []
deriving DecidableEq, Repr

/-- ProjectService.get_project: first row matching the id. -/
def get_project (db : Db) (project_id : Nat) : Option ProjectRow :=
  db.projects.find? (fun p => p.id == project_id)

/-- ProjectService.get_run. -/
def get_run (db : Db) (run_id : Nat) : Option RunRow :=
  db.runs.find? (fun r => r.id == run_id)

/-- ProjectService.list_context_by_project (pagination elided). -/
def list_context_by_project (db : Db) (project_id : Nat) : List ContextRow :=
  db.contexts.filter (fun c => c.project_id == project_id)

/-- ProjectService.list_runs_by_project (pagination elided). -/
def list_runs_by_project (db : Db) (project_id : Nat) : List RunRow :=
  db.runs.filter (fun r => r.project_id == some project_id)

/-- ProjectService.list_artifacts_by_project (pagination elided). -/
def list_artifacts_by_project (db : Db) (project_id : Nat) : List ArtifactRow :=
  db.artifacts.filter (fun a => a.project_id == some project_id)

/-- ProjectService.list_artifacts_by_run (pagination elided). -/
def list_artifacts_by_run (db : Db) (run_id : Nat) : List ArtifactRow :=
  db.artifacts.filter (fun a => a.run_id == some run_id)

/-- The AttributeError raised by the cascade statements: the code calls
.delete(synchronize_session=False) on the value of
session.exec(select(...)), and SQLModel Session.exec returns a
SQLAlchemy ScalarResult, which has no delete method. -/
def scalarResultDeleteError : String :=
  "AttributeError: \x27ScalarResult\x27 object has no attribute \x27delete\x27"

/-- ProjectService.delete_project as written: a missing project returns
False; for an existing project the first cascade statement
session.exec(select(Context)...).delete(synchronize_session=False)
raises AttributeError (ScalarResult has no delete method) before any
row is deleted, and delete_project has no except handler. -/
def delete_project (db : Db) (project_id : Nat) : Except String (Db × Bool) :=
  match get_project db project_id with
  | none => .ok (db, false)
  | some _ => .error scalarResultDeleteError

/-- ProjectService.delete_run as written: same AttributeError on the
artifact cascade statement for an existing run. -/
def delete_run (db : Db) (run_id : Nat) : Except String (Db × Bool) :=
  match get_run db run_id with
  | none => .ok (db, false)
  | some _ => .error scalarResultDeleteError

/-- Modelled from the spec: the cascade delete that delete_project
documents (docstring "Delete a project (and cascade related data)") and
that its unit test expects — remove the project and every Context,
OrchestrationRun and GeneratedArtifact referencing it, returning True;
False for a missing project. -/
def delete_project_cascade (db : Db) (project_id : Nat) : Db × Bool :=
  match get_project db project_id with
  | none => (db, false)
  | some _ =>
    ({ projects := db.projects.filter (fun p => !(p.id == project_id)),
       contexts := db.contexts.filter (fun c => !(c.project_id == project_id)),
       runs := db.runs.filter (fun r => !(r.project_id == some project_id)),
       artifacts := db.artifacts.filter (fun a => !(a.project_id == some project_id)) },
     true)

/-- Modelled from the spec: the cascade delete that delete_run documents
("Delete an orchestration run and its artifacts"). -/
def delete_run_cascade (db : Db) (run_id : Nat) : Db × Bool :=
  match get_run db run_id with
  | none => (db, false)
  | some _ =>
    ({ db with
         runs := db.runs.filter (fun r => !(r.id == run_id))
         artifacts := db.artifacts.filter (fun a => !(a.run_id == some run_id)) },
     true)

/-! ## Well-formed fenced documents, for the artifact-extraction claims.
A well-formed document is leading text without backticks followed by
fenced blocks of recognized kinds whose contents have no backticks,
separated by backtick-free text that does not glue onto a closing fence
as a new opening tag. -/

/-- The four recognized fence kinds. -/
inductive Kind where
  | jsx
  | tsx
  | css
  | python
deriving DecidableEq, Repr

/-- The fence language tag of a kind. -/
def kindStr : Kind → String
  | .jsx => "jsx"
  | .tsx => "tsx"
  | .css => "css"
  | .python => "python"

/-- The word used in the artifact file name. -/
def kindWord : Kind → String
  | .jsx => "component"
  | .tsx => "component"
  | .css => "styles"
  | .python => "script"

/-- The artifact file extension. -/
def kindExt : Kind → String
  | .jsx => "jsx"
  | .tsx => "tsx"
  | .css => "css"
  | .python => "py"

/-- The tag as a character list. -/
def kindTag (k : Kind) : List Char := (kindStr k).toList

/-- First character of the tag. -/
def kindHead : Kind → Char
  | .jsx => 'j'
  | .tsx => 't'
  | .css => 'c'
  | .python => 'p'

/-- Remaining characters of the tag. -/
def kindRest : Kind → List Char
  | .jsx => ['s', 'x']
  | .tsx => ['s', 'x']
  | .css => ['s', 's']
  | .python => ['y', 't', 'h', 'o', 'n']

/-- One fenced block and the separator text that follows it. -/
structure FencedBlock where
  kind : Kind
  content : List Char
  sep : List Char

/-- Render fenced blocks to text: fence, tag, content, fence, separator. -/
def renderBlocks : List FencedBlock → List Char
  | [] => []
  | b :: rest =>
    tick :: tick :: tick :: (kindTag b.kind ++ b.content
      ++ tick :: tick :: tick :: (b.sep ++ renderBlocks rest))

/-- A whole document: leading text then the fenced blocks. -/
def renderDoc (sep0 : List Char) (blocks : List FencedBlock) : List Char :=
  sep0 ++ renderBlocks blocks

/-- A separator between two fences must be nonempty and must not start
with a backtick or with the first letter of a recognized tag, so that
the text after a closing fence cannot read as a new opening tag. -/
def goodSepHead : List Char → Bool
  | [] => false
  | c :: _ => !(c == tick || c == 'j' || c == 't' || c == 'c' || c == 'p')

/-- Well-formedness of a block list: backtick-free contents and
separators, and every separator that precedes a further block satisfies
goodSepHead. -/
def wfBlocks : List FencedBlock → Bool
  | [] => true
  | b :: rest =>
    !hasTick b.content && !hasTick b.sep && (rest.isEmpty || goodSepHead b.sep)
      && wfBlocks rest

/-- The artifacts that one kind contributes for a well-formed document:
its blocks in source order, renumbered from 0, contents stripped. -/
def artsOf (label : String) (k : Kind) (blocks : List FencedBlock) : List Artifact :=
  (((blocks.filter (fun b => decide (b.kind = k))).map FencedBlock.content).enum).map
    fun p =>
      { type := kindStr k,
        name := label ++ "_" ++ kindWord k ++ "_" ++ toString p.1 ++ "." ++ kindExt k,
        content := String.mk (pyStripL p.2) }

/-- Modelled from the spec (section 4.2): serialize each key/value pair
as "# key: value", the value string-converted and display-truncated to
200 characters, join the lines with newlines, and append the block to
the prompt under the fixed header. -/
def inject_context_spec (prompt : String) (context : Ctx) : String :=
  let lines := context.map fun kv => "# " ++ kv.1 ++ ": " ++ (pyStr kv.2).take 200
  prompt ++ "\n\n## Available Context:\n" ++ String.intercalate "\n" lines

/-! ## Scanner lemmas -/

theorem beq_symm_false {a b : Char} (h : (a == b) = false) : (b == a) = false := by
  rw [beq_eq_false_iff_ne] at h ⊢
  exact h.symm

theorem findClose_lt (s : List Char) : ∀ p, findClose s = some p → p.2.length < s.length := by
  induction s with
  | nil => intro p h; simp [findClose] at h
  | cons c cs ih =>
    intro p h
    rw [findClose] at h
    split at h
    · obtain rfl : (([] : List Char), (c :: cs).drop 3) = p := Option.some.inj h
      simp [List.length_drop]
      omega
    · cases hc : findClose cs with
      | none => rw [hc] at h; simp at h
      | some q =>
        rw [hc] at h
        obtain rfl : (c :: q.1, q.2) = p := Option.some.inj h
        have := ih q hc
        simp
        omega

theorem findallF_stable (kind : List Char) :
    ∀ fuel s, s.length ≤ fuel → findallF kind fuel s = findallF kind s.length s := by
  intro fuel
  induction fuel using Nat.strong_induction_on with
  | _ fuel ih =>
    intro s hs
    cases fuel with
    | zero =>
      cases s with
      | nil => rfl
      | cons c cs => simp at hs
    | succ fuel =>
      cases s with
      | nil => simp [findallF]
      | cons c cs =>
        have hcs : cs.length ≤ fuel := by simpa using hs
        have hlen : (c :: cs).length = cs.length + 1 := rfl
        rw [hlen]
        simp only [findallF]
        by_cases hb : begins (tick :: tick :: tick :: kind) (c :: cs) = true
        · simp only [hb, if_true]
          cases hc : findClose ((c :: cs).drop (3 + kind.length)) with
          | some p =>
            simp only [hc]
            have hp : p.2.length ≤ cs.length := by
              have h1 := findClose_lt _ p hc
              have h2 : ((c :: cs).drop (3 + kind.length)).length ≤ cs.length + 1 := by
                simp [List.length_drop]
              simp at h1 h2 ⊢
              omega
            rw [ih fuel (by omega) p.2 (by omega),
              ih cs.length (by omega) p.2 (by omega)]
          | none =>
            simp only [hc]
            rw [ih fuel (by omega) cs hcs]
        · simp only [hb, if_false]
          rw [ih fuel (by omega) cs hcs]
          simp

theorem findall_nil (kind : List Char) : findall kind [] = [] := rfl

theorem findall_cons (kind : List Char) (c : Char) (cs : List Char) :
    findall kind (c :: cs) =
      if begins (tick :: tick :: tick :: kind) (c :: cs) then
        match findClose ((c :: cs).drop (3 + kind.length)) with
        | some p => p.1 :: findall kind p.2
        | none => findall kind cs
      else findall kind cs := by
  unfold findall
  have hlen : (c :: cs).length = cs.length + 1 := rfl
  rw [hlen]
  simp only [findallF]
  by_cases hb : begins (tick :: tick :: tick :: kind) (c :: cs) = true
  · simp only [hb, if_true]
    cases hc : findClose ((c :: cs).drop (3 + kind.length)) with
    | some p =>
      simp only [hc]
      have hp : p.2.length ≤ cs.length := by
        have h1 := findClose_lt _ p hc
        have h2 : ((c :: cs).drop (3 + kind.length)).length ≤ cs.length + 1 := by
          simp [List.length_drop]
        simp at h1 h2 ⊢
        omega
      rw [findallF_stable kind cs.length p.2 hp]
    | none => simp only [hc]
  · simp only [hb, if_false]
    simp

theorem begins_append (p t : List Char) : begins p (p ++ t) = true := by
  induction p with
  | nil => rfl
  | cons c cs ih => simp [begins, ih]

theorem begins_ne_head (p : Char) (ps : List Char) (c : Char) (cs : List Char)
    (h : (p == c) = false) : begins (p :: ps) (c :: cs) = false := by
  simp [begins, h]

theorem hasTick_cons_false {c : Char} {cs : List Char} (h : hasTick (c :: cs) = false) :
    (c == tick) = false ∧ hasTick cs = false := by
  rw [show hasTick (c :: cs) = ((c == tick) || hasTick cs) from rfl] at h
  exact ⟨by cases hcb : (c == tick) <;> simp [hcb] at h ⊢, by simp at h; exact h.2⟩

theorem hasTick_append_false {u v : List Char} (hu : hasTick u = false)
    (hv : hasTick v = false) : hasTick (u ++ v) = false := by
  induction u with
  | nil => simpa using hv
  | cons c cs ih =>
    obtain ⟨h1, h2⟩ := hasTick_cons_false hu
    rw [List.cons_append, show hasTick (c :: (cs ++ v)) = ((c == tick) || hasTick (cs ++ v)) from rfl,
      h1, ih h2]
    rfl

theorem hasTick_drop {u : List Char} (h : hasTick u = false) (n : Nat) :
    hasTick (u.drop n) = false := by
  induction u generalizing n with
  | nil => simpa using h
  | cons c cs ih =>
    cases n with
    | zero => simpa using h
    | succ n => exact ih (hasTick_cons_false h).2 n

theorem findall_skip (kind u v : List Char) (hu : hasTick u = false) :
    findall kind (u ++ v) = findall kind v := by
  induction u with
  | nil => rfl
  | cons x u ih =>
    obtain ⟨hx, hu2⟩ := hasTick_cons_false hu
    rw [List.cons_append, findall_cons]
    have hb : begins (tick :: tick :: tick :: kind) (x :: (u ++ v)) = false :=
      begins_ne_head _ _ _ _ (beq_symm_false hx)
    rw [if_neg (by simp [hb])]
    exact ih hu2

theorem findall_noTick (kind u : List Char) (hu : hasTick u = false) :
    findall kind u = [] := by
  calc findall kind u = findall kind (u ++ []) := by rw [List.append_nil]
    _ = findall kind [] := findall_skip kind u [] hu
    _ = [] := rfl

theorem findClose_noTick (u : List Char) (hu : hasTick u = false) : findClose u = none := by
  induction u with
  | nil => rfl
  | cons x cs ih =>
    obtain ⟨hx, hu2⟩ := hasTick_cons_false hu
    rw [findClose]
    have hb : begins [tick, tick, tick] (x :: cs) = false :=
      begins_ne_head _ _ _ _ (beq_symm_false hx)
    rw [if_neg (by simp [hb]), ih hu2]

theorem findClose_content (c t : List Char) (hc : hasTick c = false) :
    findClose (c ++ tick :: tick :: tick :: t) = some (c, t) := by
  induction c with
  | nil =>
    rw [List.nil_append, findClose]
    rw [if_pos (by simp [begins])]
    rfl
  | cons x c ih =>
    obtain ⟨hx, hc2⟩ := hasTick_cons_false hc
    rw [List.cons_append, findClose]
    have hb : begins [tick, tick, tick] (x :: (c ++ tick :: tick :: tick :: t)) = false :=
      begins_ne_head _ _ _ _ (beq_symm_false hx)
    rw [if_neg (by simp [hb]), ih hc2]

theorem drop_three_cons (l : List Char) (n : Nat) :
    (tick :: tick :: tick :: l).drop (3 + n) = l.drop n := by
  rw [Nat.add_comm]
  rfl

theorem findall_fence_same (kind c Z : List Char) (hc : hasTick c = false) :
    findall kind (tick :: tick :: tick :: (kind ++ (c ++ tick :: tick :: tick :: Z)))
      = c :: findall kind Z := by
  rw [findall_cons]
  have hb : begins (tick :: tick :: tick :: kind)
      (tick :: tick :: tick :: (kind ++ (c ++ tick :: tick :: tick :: Z))) = true := by
    have := begins_append (tick :: tick :: tick :: kind) (c ++ tick :: tick :: tick :: Z)
    simpa using this
  rw [if_pos (by simp [hb])]
  have hdrop : (tick :: tick :: tick :: (kind ++ (c ++ tick :: tick :: tick :: Z))).drop
      (3 + kind.length) = c ++ tick :: tick :: tick :: Z := by
    rw [drop_three_cons, List.drop_left]
  rw [hdrop, findClose_content c Z hc]

theorem findall_skip_fence (a : Char) (as : List Char) (b : Char) (bs c Z : List Char)
    (hab : (a == b) = false) (hb : (b == tick) = false)
    (hbs : hasTick bs = false) (hc : hasTick c = false) :
    findall (a :: as) (tick :: tick :: tick :: b :: (bs ++ (c ++ Z)))
      = findall (a :: as) Z := by
  rw [findall_cons]
  have h0 : begins (tick :: tick :: tick :: a :: as)
      (tick :: tick :: tick :: b :: (bs ++ (c ++ Z))) = false := by
    simp [begins, hab]
  rw [if_neg (by simpa using h0)]
  rw [findall_cons]
  have h1 : begins (tick :: tick :: tick :: a :: as)
      (tick :: tick :: b :: (bs ++ (c ++ Z))) = false := by
    simp [begins, beq_symm_false hb]
  rw [if_neg (by simpa using h1)]
  rw [findall_cons]
  have h2 : begins (tick :: tick :: tick :: a :: as)
      (tick :: b :: (bs ++ (c ++ Z))) = false := by
    simp [begins, beq_symm_false hb]
  rw [if_neg (by simpa using h2)]
  have hshape : b :: (bs ++ (c ++ Z)) = (b :: (bs ++ c)) ++ Z := by simp
  rw [hshape]
  exact findall_skip _ _ _ (by
    have : hasTick (bs ++ c) = false := hasTick_append_false hbs hc
    rw [show hasTick (b :: (bs ++ c)) = ((b == tick) || hasTick (bs ++ c)) from rfl, hb, this]
    rfl)

theorem findall_ticks_sep (a : Char) (as : List Char) (s0 : Char) (w : List Char)
    (hs0t : (s0 == tick) = false) (hs0a : (a == s0) = false) :
    findall (a :: as) (tick :: tick :: tick :: s0 :: w) = findall (a :: as) (s0 :: w) := by
  rw [findall_cons]
  have h0 : begins (tick :: tick :: tick :: a :: as) (tick :: tick :: tick :: s0 :: w)
      = false := by simp [begins, hs0a]
  rw [if_neg (by simp [h0])]
  rw [findall_cons]
  have h1 : begins (tick :: tick :: tick :: a :: as) (tick :: tick :: s0 :: w) = false := by
    simp [begins, beq_symm_false hs0t]
  rw [if_neg (by simp [h1])]
  rw [findall_cons]
  have h2 : begins (tick :: tick :: tick :: a :: as) (tick :: s0 :: w) = false := by
    simp [begins, beq_symm_false hs0t]
  rw [if_neg (by simp [h2])]

theorem findall_two_ticks (a : Char) (as : List Char) (s0 : Char) (w : List Char)
    (hs0t : (s0 == tick) = false) :
    findall (a :: as) (tick :: tick :: s0 :: w) = findall (a :: as) (s0 :: w) := by
  rw [findall_cons]
  have h1 : begins (tick :: tick :: tick :: a :: as) (tick :: tick :: s0 :: w) = false := by
    simp [begins, beq_symm_false hs0t]
  rw [if_neg (by simp [h1])]
  rw [findall_cons]
  have h2 : begins (tick :: tick :: tick :: a :: as) (tick :: s0 :: w) = false := by
    simp [begins, beq_symm_false hs0t]
  rw [if_neg (by simp [h2])]

theorem findall_fence_other (a : Char) (as : List Char) (b : Char) (bs c : List Char)
    (s0 : Char) (w : List Char)
    (hab : (a == b) = false) (hb : (b == tick) = false)
    (hbs : hasTick bs = false) (hc : hasTick c = false)
    (hs0t : (s0 == tick) = false) (hs0a : (a == s0) = false) :
    findall (a :: as)
        (tick :: tick :: tick :: b :: (bs ++ (c ++ tick :: tick :: tick :: s0 :: w)))
      = findall (a :: as) (s0 :: w) := by
  rw [findall_skip_fence a as b bs c _ hab hb hbs hc]
  exact findall_ticks_sep a as s0 w hs0t hs0a

theorem findall_fence_last (a : Char) (as : List Char) (b : Char) (bs c s : List Char)
    (hab : (a == b) = false) (hb : (b == tick) = false)
    (hbs : hasTick bs = false) (hc : hasTick c = false)
    (hs : hasTick s = false) :
    findall (a :: as) (tick :: tick :: tick :: b :: (bs ++ (c ++ tick :: tick :: tick :: s)))
      = [] := by
  rw [findall_skip_fence a as b bs c _ hab hb hbs hc]
  cases s with
  | nil =>
    rw [findall_cons]
    rw [if_neg (by simp [begins])]
    rw [findall_cons]
    rw [if_neg (by simp [begins])]
    rw [findall_cons]
    rw [if_neg (by simp [begins])]
    rfl
  | cons s0 w =>
    obtain ⟨hs0, hw⟩ := hasTick_cons_false hs
    have hcond : begins (tick :: tick :: tick :: a :: as) (tick :: tick :: tick :: s0 :: w)
        = begins (a :: as) (s0 :: w) := by
      show ((tick == tick) && ((tick == tick) && ((tick == tick)
        && begins (a :: as) (s0 :: w)))) = _
      simp
    by_cases hbg : begins (a :: as) (s0 :: w) = true
    · rw [findall_cons]
      rw [if_pos (by rw [hcond]; exact hbg)]
      have hdrop : (tick :: tick :: tick :: s0 :: w).drop (3 + (a :: as).length)
          = (s0 :: w).drop (a :: as).length := drop_three_cons _ _
      rw [hdrop, findClose_noTick _ (hasTick_drop hs _)]
      rw [findall_two_ticks a as s0 w hs0]
      exact findall_noTick _ _ hs
    · rw [findall_cons]
      rw [if_neg (by rw [hcond]; exact hbg)]
      rw [findall_two_ticks a as s0 w hs0]
      exact findall_noTick _ _ hs

/-! ## Kind facts and the main extraction characterization -/

theorem kindTag_eq (k : Kind) : kindTag k = kindHead k :: kindRest k := by
  cases k <;> rfl

theorem kindHead_ne_tick (k : Kind) : (kindHead k == tick) = false := by
  cases k <;> decide

theorem kindRest_noTick (k : Kind) : hasTick (kindRest k) = false := by
  cases k <;> decide

theorem kindHead_ne (k k' : Kind) (h : k ≠ k') : (kindHead k == kindHead k') = false := by
  cases k <;> cases k' <;> first | exact absurd rfl h | decide

theorem goodSepHead_facts (k : Kind) (s0 : Char) (w : List Char)
    (h : goodSepHead (s0 :: w) = true) :
    (s0 == tick) = false ∧ (kindHead k == s0) = false := by
  have h2 : (s0 == tick) = false ∧ (s0 == 'j') = false ∧ (s0 == 't') = false
      ∧ (s0 == 'c') = false ∧ (s0 == 'p') = false := by
    rw [goodSepHead] at h
    cases h1 : (s0 == tick) <;> cases h2 : (s0 == 'j') <;> cases h3 : (s0 == 't')
      <;> cases h4 : (s0 == 'c') <;> cases h5 : (s0 == 'p')
      <;> simp_all
  refine ⟨h2.1, ?_⟩
  cases k <;> simp only [kindHead]
  · exact beq_symm_false h2.2.1
  · exact beq_symm_false h2.2.2.1
  · exact beq_symm_false h2.2.2.2.1
  · exact beq_symm_false h2.2.2.2.2

theorem wfBlocks_cons (b : FencedBlock) (rest : List FencedBlock)
    (h : wfBlocks (b :: rest) = true) :
    hasTick b.content = false ∧ hasTick b.sep = false
      ∧ (rest.isEmpty || goodSepHead b.sep) = true ∧ wfBlocks rest = true := by
  rw [wfBlocks] at h
  cases h1 : hasTick b.content <;> cases h2 : hasTick b.sep
    <;> cases h3 : (rest.isEmpty || goodSepHead b.sep) <;> cases h4 : wfBlocks rest
    <;> simp_all

/-- The scan for one kind over a well-formed document returns exactly
the contents of that kind's blocks, in source order. -/
theorem findall_render (k : Kind) (blocks : List FencedBlock) :
    ∀ sep0 : List Char, hasTick sep0 = false → wfBlocks blocks = true →
    findall (kindTag k) (sep0 ++ renderBlocks blocks)
      = (blocks.filter (fun b => decide (b.kind = k))).map FencedBlock.content := by
  induction blocks with
  | nil =>
    intro sep0 h0 _
    rw [show renderBlocks [] = [] from rfl, List.append_nil]
    simp [findall_noTick _ _ h0]
  | cons b rest ih =>
    intro sep0 h0 hwf
    obtain ⟨hcont, hsep, hcond, hrest⟩ := wfBlocks_cons b rest hwf
    rw [findall_skip _ _ _ h0]
    rw [renderBlocks]
    by_cases hk : b.kind = k
    · have hshape : kindTag b.kind ++ b.content
          ++ tick :: tick :: tick :: (b.sep ++ renderBlocks rest)
          = kindTag k ++ (b.content ++ tick :: tick :: tick :: (b.sep ++ renderBlocks rest)) := by
        rw [hk, List.append_assoc]
      rw [hshape, findall_fence_same _ _ _ hcont]
      rw [ih b.sep hsep hrest]
      simp [List.filter_cons, hk]
    · have hne : k ≠ b.kind := fun e => hk e.symm
      have hfilter : (b :: rest).filter (fun b => decide (b.kind = k))
          = rest.filter (fun b => decide (b.kind = k)) := by
        simp [List.filter_cons, hk]
      rw [hfilter]
      rw [kindTag_eq b.kind, kindTag_eq k]
      simp only [List.cons_append, List.append_assoc]
      cases rest with
      | nil =>
        rw [show renderBlocks [] = [] from rfl, List.append_nil]
        exact findall_fence_last (kindHead k) (kindRest k) (kindHead b.kind)
          (kindRest b.kind) b.content b.sep (kindHead_ne k b.kind hne)
          (kindHead_ne_tick b.kind) (kindRest_noTick b.kind) hcont hsep
      | cons r rs =>
        have hgood : goodSepHead b.sep = true := by simpa using hcond
        cases hsepc : b.sep with
        | nil => rw [hsepc] at hgood; simp [goodSepHead] at hgood
        | cons s0 w =>
          rw [hsepc] at hgood hsep
          obtain ⟨hs0t, hs0k⟩ := goodSepHead_facts k s0 w hgood
          simp only [List.cons_append]
          rw [findall_fence_other (kindHead k) (kindRest k) (kindHead b.kind)
            (kindRest b.kind) b.content s0 (w ++ renderBlocks (r :: rs))
            (kindHead_ne k b.kind hne) (kindHead_ne_tick b.kind)
            (kindRest_noTick b.kind) hcont hs0t hs0k]
          rw [← kindTag_eq k]
          exact ih (s0 :: w) hsep hrest

theorem scanKind_render (k : Kind) (label : String) (sep0 : List Char)
    (blocks : List FencedBlock) (h0 : hasTick sep0 = false) (hwf : wfBlocks blocks = true) :
    scanKind label (kindStr k) (kindWord k) (kindExt k) (renderDoc sep0 blocks)
      = artsOf label k blocks := by
  unfold scanKind artsOf renderDoc
  rw [show (kindStr k).toList = kindTag k from rfl]
  rw [findall_render k blocks sep0 h0 hwf]

theorem scanKind_noTick (label kind word ext : String) (text : List Char)
    (h : hasTick text = false) : scanKind label kind word ext text = [] := by
  unfold scanKind
  rw [findall_noTick _ _ h]
  rfl

/-- C3: over any well-formed fenced document, _extract_artifacts returns
one artifact per fenced block of a recognized kind (jsx, tsx, css,
python), named label_word_index.ext with the fence interior stripped of
leading and trailing whitespace; within each kind the artifacts follow
source order and are numbered from 0, the output is partitioned by kind
in the fixed order jsx, tsx, css, python; and text containing no fence
at all yields the empty list rather than an error. -/
theorem c3_artifact_extraction :
    (∀ (label : String) (sep0 : List Char) (blocks : List FencedBlock),
        hasTick sep0 = false → wfBlocks blocks = true →
        extract_artifacts label (String.mk (renderDoc sep0 blocks))
          = artsOf label Kind.jsx blocks ++ artsOf label Kind.tsx blocks
            ++ artsOf label Kind.css blocks ++ artsOf label Kind.python blocks)
    ∧ (∀ (label : String) (text : List Char), hasTick text = false →
        extract_artifacts label (String.mk text) = []) := by
  constructor
  · intro label sep0 blocks h0 hwf
    have hjsx : scanKind label "jsx" "component" "jsx" (renderDoc sep0 blocks)
        = artsOf label Kind.jsx blocks := scanKind_render Kind.jsx label sep0 blocks h0 hwf
    have htsx : scanKind label "tsx" "component" "tsx" (renderDoc sep0 blocks)
        = artsOf label Kind.tsx blocks := scanKind_render Kind.tsx label sep0 blocks h0 hwf
    have hcss : scanKind label "css" "styles" "css" (renderDoc sep0 blocks)
        = artsOf label Kind.css blocks := scanKind_render Kind.css label sep0 blocks h0 hwf
    have hpy : scanKind label "python" "script" "py" (renderDoc sep0 blocks)
        = artsOf label Kind.python blocks := scanKind_render Kind.python label sep0 blocks h0 hwf
    show scanKind label "jsx" "component" "jsx" (renderDoc sep0 blocks)
        ++ scanKind label "tsx" "component" "tsx" (renderDoc sep0 blocks)
        ++ scanKind label "css" "styles" "css" (renderDoc sep0 blocks)
        ++ scanKind label "python" "script" "py" (renderDoc sep0 blocks) = _
    rw [hjsx, htsx, hcss, hpy]
  · intro label text h
    show scanKind label "jsx" "component" "jsx" text
        ++ scanKind label "tsx" "component" "tsx" text
        ++ scanKind label "css" "styles" "css" text
        ++ scanKind label "python" "script" "py" text = _
    rw [scanKind_noTick _ _ _ _ _ h, scanKind_noTick _ _ _ _ _ h,
      scanKind_noTick _ _ _ _ _ h, scanKind_noTick _ _ _ _ _ h]
    rfl

/-- A two-block document used to witness the extraction theorem. -/
def c3blocks : List FencedBlock :=
  [{ kind := Kind.jsx, content := "\nA\n".toList, sep := "\n".toList },
   { kind := Kind.css, content := "\nB\n".toList, sep := [] }]

theorem c3_artifact_extraction_witness :
    (hasTick [] = false ∧ wfBlocks c3blocks = true
      ∧ extract_artifacts "x" (String.mk (renderDoc [] c3blocks))
        = artsOf "x" Kind.jsx c3blocks ++ artsOf "x" Kind.tsx c3blocks
          ++ artsOf "x" Kind.css c3blocks ++ artsOf "x" Kind.python c3blocks)
    ∧ (hasTick "hello".toList = false
      ∧ extract_artifacts "x" (String.mk "hello".toList) = []) :=
  ⟨⟨by decide, by decide,
      c3_artifact_extraction.1 "x" [] c3blocks (by decide) (by decide)⟩,
    ⟨by decide, c3_artifact_extraction.2 "x" "hello".toList (by decide)⟩⟩

/-! ## Step and loop lemmas -/

theorem execute_step_unknown (hf : Option GenFun) (step : StepInput) (ctx : Ctx)
    (h : knownModel step.model_type = false) :
    execute_step hf step ctx
      = { step_name := step.step_name, status := .FAILED,
          error := some ("Unknown model type: " ++ step.model_type) } := by
  have h3 : ¬(step.model_type = "CodeLlama") ∧ ¬(step.model_type = "CodeGemma")
      ∧ ¬(step.model_type = "T5Gemma") := by
    simpa [knownModel, and_assoc] using h
  unfold execute_step
  simp [h3.1, h3.2.1, h3.2.2]

theorem execute_step_success (hf : Option GenFun) (step : StepInput) (ctx : Ctx)
    (h : knownModel step.model_type = true) :
    (execute_step hf step ctx).status = .SUCCESS := by
  have h3 : step.model_type = "CodeLlama" ∨ step.model_type = "CodeGemma"
      ∨ step.model_type = "T5Gemma" := by
    simpa [knownModel, or_assoc] using h
  unfold execute_step
  rcases h3 with h1 | h1 | h1 <;> simp [h1]

theorem execute_step_status_or (hf : Option GenFun) (step : StepInput) (ctx : Ctx) :
    (execute_step hf step ctx).status = .SUCCESS
      ∨ (execute_step hf step ctx).status = .FAILED := by
  cases h : knownModel step.model_type
  · right
    rw [execute_step_unknown hf step ctx h]
  · left
    exact execute_step_success hf step ctx h

theorem runUpdates_nil : runUpdates [] = [] := rfl

theorem runUpdates_append (u v : List DbOp) :
    runUpdates (u ++ v) = runUpdates u ++ runUpdates v := by
  unfold runUpdates
  exact List.filterMap_append _ _ _

theorem runUpdates_saves (rid pid : Nat) (l : List Artifact) :
    runUpdates (l.map (DbOp.saveArtifact rid pid)) = [] := by
  induction l with
  | nil => rfl
  | cons a l ih => simp [runUpdates, List.filterMap_cons]

theorem runUpdates_update (rid : Nat) (st : String) (l : List DbOp) :
    runUpdates (DbOp.updateRun rid st :: l) = (rid, st) :: runUpdates l := by
  simp [runUpdates, List.filterMap_cons]

theorem execLoop_all_known (hf : Option GenFun) (rid pid : Nat) :
    ∀ (steps : List StepInput) (i : Nat) (ctx : Ctx),
      (∀ s ∈ steps, knownModel s.model_type = true) →
      (execLoop hf rid pid i ctx steps).failed = none
      ∧ (execLoop hf rid pid i ctx steps).outs.length = steps.length
      ∧ runUpdates (execLoop hf rid pid i ctx steps).ops = []
      ∧ (∀ o ∈ (execLoop hf rid pid i ctx steps).outs, o.status = .SUCCESS) := by
  intro steps
  induction steps with
  | nil => intro i ctx _; refine ⟨rfl, rfl, rfl, ?_⟩; intro o ho; simp [execLoop] at ho
  | cons s rest ih =>
    intro i ctx hall
    have hs : (execute_step hf s ctx).status = .SUCCESS :=
      execute_step_success hf s ctx (hall s (by simp))
    have hns : ¬((execute_step hf s ctx).status = StepStatus.FAILED) := by
      rw [hs]; intro hcon; cases hcon
    have ihr := ih (i + 1)
      (dictSet (dictSet ctx ("step_" ++ toString i ++ "_output")
          (match (execute_step hf s ctx).result with | some r => .vstr r | none => .vnone))
        ("step_" ++ toString i ++ "_artifacts") (.vartifacts (execute_step hf s ctx).artifacts))
      (fun s2 h2 => hall s2 (by simp [h2]))
    rw [execLoop]
    rw [if_neg hns]
    refine ⟨ihr.1, by simpa using ihr.2.1, ?_, ?_⟩
    · rw [runUpdates_append, runUpdates_saves, ihr.2.2.1]
      rfl
    · intro o ho
      simp at ho
      rcases ho with rfl | ho
      · exact hs
      · exact ihr.2.2.2 o ho

theorem execLoop_first_bad (hf : Option GenFun) (rid pid : Nat) :
    ∀ (pre : List StepInput) (bad : StepInput) (post : List StepInput) (i : Nat) (ctx : Ctx),
      (∀ s ∈ pre, knownModel s.model_type = true) →
      knownModel bad.model_type = false →
      (execLoop hf rid pid i ctx (pre ++ bad :: post)).failed
        = some (bad.step_name, "Unknown model type: " ++ bad.model_type)
      ∧ (execLoop hf rid pid i ctx (pre ++ bad :: post)).outs.length = pre.length + 1
      ∧ runUpdates (execLoop hf rid pid i ctx (pre ++ bad :: post)).ops = [(rid, "FAILED")] := by
  intro pre
  induction pre with
  | nil =>
    intro bad post i ctx _ hbad
    rw [List.nil_append, execLoop]
    rw [execute_step_unknown hf bad ctx hbad]
    exact ⟨rfl, rfl, rfl⟩
  | cons s pre ih =>
    intro bad post i ctx hall hbad
    have hs : (execute_step hf s ctx).status = .SUCCESS :=
      execute_step_success hf s ctx (hall s (by simp))
    have hns : ¬((execute_step hf s ctx).status = StepStatus.FAILED) := by
      rw [hs]; intro hcon; cases hcon
    have ihr := ih bad post (i + 1)
      (dictSet (dictSet ctx ("step_" ++ toString i ++ "_output")
          (match (execute_step hf s ctx).result with | some r => .vstr r | none => .vnone))
        ("step_" ++ toString i ++ "_artifacts") (.vartifacts (execute_step hf s ctx).artifacts))
      (fun s2 h2 => hall s2 (by simp [h2])) hbad
    rw [List.cons_append, execLoop]
    rw [if_neg hns]
    refine ⟨ihr.1, by simpa using ihr.2.1, ?_⟩
    rw [runUpdates_append, runUpdates_saves, ihr.2.2]
    rfl

theorem execLoop_has_bad (hf : Option GenFun) (rid pid : Nat) :
    ∀ (steps : List StepInput) (i : Nat) (ctx : Ctx),
      (∃ s ∈ steps, knownModel s.model_type = false) →
      (execLoop hf rid pid i ctx steps).failed.isSome = true := by
  intro steps
  induction steps with
  | nil => intro i ctx h; simp at h
  | cons s rest ih =>
    intro i ctx h
    cases hk : knownModel s.model_type
    · rw [execLoop]
      rw [execute_step_unknown hf s ctx hk]
      rfl
    · have hs : (execute_step hf s ctx).status = .SUCCESS :=
        execute_step_success hf s ctx hk
      have hns : ¬((execute_step hf s ctx).status = StepStatus.FAILED) := by
        rw [hs]; intro hcon; cases hcon
      rw [execLoop]
      rw [if_neg hns]
      refine ih (i + 1) _ ?_
      rcases h with ⟨s2, hmem, hbad⟩
      rcases (by simpa using hmem : s2 = s ∨ s2 ∈ rest) with rfl | hmem2
      · rw [hk] at hbad; cases hbad
      · exact ⟨s2, hmem2, hbad⟩

theorem execLoop_runUpdates (hf : Option GenFun) (rid pid : Nat) :
    ∀ (steps : List StepInput) (i : Nat) (ctx : Ctx),
      (runUpdates (execLoop hf rid pid i ctx steps).ops = []
        ∧ (execLoop hf rid pid i ctx steps).failed = none)
      ∨ (runUpdates (execLoop hf rid pid i ctx steps).ops = [(rid, "FAILED")]
        ∧ (execLoop hf rid pid i ctx steps).failed.isSome = true) := by
  intro steps
  induction steps with
  | nil => intro i ctx; left; exact ⟨rfl, rfl⟩
  | cons s rest ih =>
    intro i ctx
    by_cases hfail : (execute_step hf s ctx).status = StepStatus.FAILED
    · right
      rw [execLoop, if_pos hfail]
      exact ⟨rfl, rfl⟩
    · rw [execLoop, if_neg hfail]
      rcases ih (i + 1)
          (dictSet (dictSet ctx ("step_" ++ toString i ++ "_output")
              (match (execute_step hf s ctx).result with | some r => .vstr r | none => .vnone))
            ("step_" ++ toString i ++ "_artifacts")
            (.vartifacts (execute_step hf s ctx).artifacts)) with h | h
      · left
        refine ⟨?_, h.2⟩
        rw [runUpdates_append, runUpdates_saves, h.1]
        rfl
      · right
        refine ⟨?_, h.2⟩
        rw [runUpdates_append, runUpdates_saves, h.1]
        rfl

theorem execLoop_outs_status (hf : Option GenFun) (rid pid : Nat) :
    ∀ (steps : List StepInput) (i : Nat) (ctx : Ctx),
      ∀ o ∈ (execLoop hf rid pid i ctx steps).outs,
        o.status = .SUCCESS ∨ o.status = .FAILED := by
  intro steps
  induction steps with
  | nil => intro i ctx o ho; simp [execLoop] at ho
  | cons s rest ih =>
    intro i ctx o ho
    by_cases hfail : (execute_step hf s ctx).status = StepStatus.FAILED
    · rw [execLoop, if_pos hfail] at ho
      simp at ho
      rw [ho]
      right
      exact hfail
    · rw [execLoop, if_neg hfail] at ho
      simp at ho
      rcases ho with rfl | ho
      · exact execute_step_status_or hf s ctx
      · exact ih (i + 1) _ o ho

/-! ## Pipeline equations and the execution claims -/

theorem execute_pipeline_eq_of_none (hf : Option GenFun) (p : OrchestrationPipeline)
    (rid : Nat)
    (hnone : (execLoop hf rid p.project_id 0 p.global_context p.steps).failed = none) :
    execute_pipeline hf p rid
      = { run_id := rid, project_id := p.project_id, status := "SUCCESS",
          steps := (execLoop hf rid p.project_id 0 p.global_context p.steps).outs,
          final_artifacts := (run_assembler hf rid p.project_id
            (execLoop hf rid p.project_id 0 p.global_context p.steps).ctx
            (execLoop hf rid p.project_id 0 p.global_context p.steps).outs).artifacts,
          assembled_code := some (run_assembler hf rid p.project_id
            (execLoop hf rid p.project_id 0 p.global_context p.steps).ctx
            (execLoop hf rid p.project_id 0 p.global_context p.steps).outs).assembled_code,
          error := none,
          ops := DbOp.updateRun rid "RUNNING"
            :: (execLoop hf rid p.project_id 0 p.global_context p.steps).ops
            ++ [DbOp.updateRun rid "SUCCESS"],
          assembler_calls := 1 } := by
  simp only [execute_pipeline, hnone]

theorem execute_pipeline_eq_of_some (hf : Option GenFun) (p : OrchestrationPipeline)
    (rid : Nat) (name err : String)
    (hsome : (execLoop hf rid p.project_id 0 p.global_context p.steps).failed
      = some (name, err)) :
    execute_pipeline hf p rid
      = { run_id := rid, project_id := p.project_id, status := "FAILED",
          steps := (execLoop hf rid p.project_id 0 p.global_context p.steps).outs,
          final_artifacts := [],
          error := some ("Pipeline stopped at step \x27" ++ name ++ "\x27: " ++ err),
          ops := DbOp.updateRun rid "RUNNING"
            :: (execLoop hf rid p.project_id 0 p.global_context p.steps).ops,
          assembler_calls := 0 } := by
  simp only [execute_pipeline, hsome]

/-- C1: when the step list is well-formed steps followed by a step whose
executor result is FAILED (an unknown model type, the executor's only
failure mode) at 0-indexed position k = pre.length, execute_pipeline
stops there: the step-result list has length k + 1, the returned status
is FAILED, and the persisted run-status writes are RUNNING then FAILED. -/
theorem c1_fail_fast :
    ∀ (hf : Option GenFun) (p : OrchestrationPipeline) (rid : Nat)
      (pre : List StepInput) (bad : StepInput) (post : List StepInput),
      p.steps = pre ++ bad :: post →
      (∀ s ∈ pre, knownModel s.model_type = true) →
      knownModel bad.model_type = false →
      (execute_pipeline hf p rid).status = "FAILED"
      ∧ (execute_pipeline hf p rid).steps.length = pre.length + 1
      ∧ runUpdates (execute_pipeline hf p rid).ops = [(rid, "RUNNING"), (rid, "FAILED")] := by
  intro hf p rid pre bad post hsteps hpre hbad
  have hl := execLoop_first_bad hf rid p.project_id pre bad post 0 p.global_context hpre hbad
  rw [← hsteps] at hl
  rw [execute_pipeline_eq_of_some hf p rid bad.step_name
    ("Unknown model type: " ++ bad.model_type) hl.1]
  refine ⟨rfl, ?_, ?_⟩
  · simpa using hl.2.1
  · show runUpdates (DbOp.updateRun rid "RUNNING"
      :: (execLoop hf rid p.project_id 0 p.global_context p.steps).ops) = _
    rw [runUpdates_update, hl.2.2]

/-- Inputs used by the C1 witness. -/
def wStepGood : StepInput := { step_name := "a", model_type := "CodeLlama", prompt := "p" }

def wStepBad : StepInput := { step_name := "b", model_type := "NotARealModel", prompt := "p" }

def wPipeFail : OrchestrationPipeline :=
  { project_id := 1, name := "t", steps := [wStepGood, wStepBad] }

theorem c1_fail_fast_witness :
    wPipeFail.steps = [wStepGood] ++ wStepBad :: []
    ∧ (∀ s ∈ [wStepGood], knownModel s.model_type = true)
    ∧ knownModel wStepBad.model_type = false
    ∧ ((execute_pipeline none wPipeFail 7).status = "FAILED"
        ∧ (execute_pipeline none wPipeFail 7).steps.length = [wStepGood].length + 1
        ∧ runUpdates (execute_pipeline none wPipeFail 7).ops
            = [(7, "RUNNING"), (7, "FAILED")]) :=
  ⟨rfl, by decide, by decide,
    c1_fail_fast none wPipeFail 7 [wStepGood] wStepBad [] rfl (by decide) (by decide)⟩

/-- C2: when every step's executor result is SUCCESS (equivalently, every
step's model type is in the closed handler set — see C4/C10: the
executor fails exactly on unknown model types), execute_pipeline returns
status SUCCESS with one step result per input step, invokes the
assembler exactly once after the loop, whatever the assembler backend
does (hf is universally quantified, including backends whose assembler
call raises), and persists RUNNING then SUCCESS. -/
theorem c2_all_success :
    ∀ (hf : Option GenFun) (p : OrchestrationPipeline) (rid : Nat),
      (∀ s ∈ p.steps, knownModel s.model_type = true) →
      (execute_pipeline hf p rid).status = "SUCCESS"
      ∧ (execute_pipeline hf p rid).steps.length = p.steps.length
      ∧ (execute_pipeline hf p rid).assembler_calls = 1
      ∧ runUpdates (execute_pipeline hf p rid).ops = [(rid, "RUNNING"), (rid, "SUCCESS")] := by
  intro hf p rid h
  have hl := execLoop_all_known hf rid p.project_id p.steps 0 p.global_context h
  rw [execute_pipeline_eq_of_none hf p rid hl.1]
  refine ⟨rfl, hl.2.1, rfl, ?_⟩
  show runUpdates ((DbOp.updateRun rid "RUNNING"
    :: (execLoop hf rid p.project_id 0 p.global_context p.steps).ops)
    ++ [DbOp.updateRun rid "SUCCESS"]) = _
  rw [runUpdates_append, runUpdates_update, hl.2.2.1]
  rfl

def wPipeGood : OrchestrationPipeline :=
  { project_id := 1, name := "t", steps := [wStepGood] }

theorem c2_all_success_witness :
    (∀ s ∈ wPipeGood.steps, knownModel s.model_type = true)
    ∧ ((execute_pipeline none wPipeGood 7).status = "SUCCESS"
        ∧ (execute_pipeline none wPipeGood 7).steps.length = wPipeGood.steps.length
        ∧ (execute_pipeline none wPipeGood 7).assembler_calls = 1
        ∧ runUpdates (execute_pipeline none wPipeGood 7).ops
            = [(7, "RUNNING"), (7, "SUCCESS")]) :=
  ⟨by decide, c2_all_success none wPipeGood 7 (by decide)⟩

/-- C4: a step whose model identifier is outside the closed handler set
(CodeLlama, CodeGemma, T5Gemma) produces a FAILED result whose error is
the raised "Unknown model type: ..." message (which contains the literal
"Unknown model type") and whose artifact list is empty (the returned
record is exactly the FAILED record with default empty artifacts); and a
pipeline containing such a step terminates with status FAILED. -/
theorem c4_unknown_model_type :
    (∀ (hf : Option GenFun) (step : StepInput) (ctx : Ctx),
        knownModel step.model_type = false →
        execute_step hf step ctx
          = { step_name := step.step_name, status := .FAILED,
              error := some ("Unknown model type: " ++ step.model_type) })
    ∧ (∀ (hf : Option GenFun) (p : OrchestrationPipeline) (rid : Nat),
        (∃ s ∈ p.steps, knownModel s.model_type = false) →
        (execute_pipeline hf p rid).status = "FAILED") := by
  constructor
  · intro hf step ctx h
    exact execute_step_unknown hf step ctx h
  · intro hf p rid h
    have hb := execLoop_has_bad hf rid p.project_id p.steps 0 p.global_context h
    cases hsome : (execLoop hf rid p.project_id 0 p.global_context p.steps).failed with
    | none => rw [hsome] at hb; simp at hb
    | some pr =>
      obtain ⟨name, err⟩ := pr
      rw [execute_pipeline_eq_of_some hf p rid name err hsome]

theorem c4_unknown_model_type_witness :
    (knownModel wStepBad.model_type = false
      ∧ execute_step none wStepBad []
          = { step_name := wStepBad.step_name, status := .FAILED,
              error := some ("Unknown model type: " ++ wStepBad.model_type) })
    ∧ ((∃ s ∈ wPipeFail.steps, knownModel s.model_type = false)
      ∧ (execute_pipeline none wPipeFail 9).status = "FAILED") :=
  ⟨⟨by decide, c4_unknown_model_type.1 none wStepBad [] (by decide)⟩,
    ⟨by decide, c4_unknown_model_type.2 none wPipeFail 9 (by decide)⟩⟩

/-- C5: when the assembler's generation call raises, _run_assembler
returns empty assembled code, an empty artifact list and the error text;
and a pipeline whose steps all succeed still terminates SUCCESS in that
case, with assembled_code "" and no final artifacts — the assembler's
failure never changes the run status or the persisted statuses. -/
theorem c5_assembler_error_nonfatal :
    (∀ (g : GenFun) (rid pid : Nat) (ctx : Ctx) (outs : List StepOutput) (e : String),
        g "CodeLlama-7b" (build_assembler_prompt outs) (.vint 2048) (.vfloat (3 / 10))
          = .error e →
        run_assembler (some g) rid pid ctx outs
          = { assembled_code := "", artifacts := [], error := some e })
    ∧ (∀ (g : GenFun) (p : OrchestrationPipeline) (rid : Nat) (e : String),
        (∀ s ∈ p.steps, knownModel s.model_type = true) →
        g "CodeLlama-7b"
            (build_assembler_prompt
              (execLoop (some g) rid p.project_id 0 p.global_context p.steps).outs)
            (.vint 2048) (.vfloat (3 / 10)) = .error e →
        (execute_pipeline (some g) p rid).status = "SUCCESS"
        ∧ (execute_pipeline (some g) p rid).assembled_code = some ""
        ∧ (execute_pipeline (some g) p rid).final_artifacts = []
        ∧ (execute_pipeline (some g) p rid).error = none
        ∧ runUpdates (execute_pipeline (some g) p rid).ops
            = [(rid, "RUNNING"), (rid, "SUCCESS")]) := by
  constructor
  · intro g rid pid ctx outs e hg
    unfold run_assembler
    simp only [hg]
  · intro g p rid e hall hg
    have hl := execLoop_all_known (some g) rid p.project_id p.steps 0 p.global_context hall
    have ha : run_assembler (some g) rid p.project_id
        (execLoop (some g) rid p.project_id 0 p.global_context p.steps).ctx
        (execLoop (some g) rid p.project_id 0 p.global_context p.steps).outs
        = { assembled_code := "", artifacts := [], error := some e } := by
      unfold run_assembler
      simp only [hg]
    rw [execute_pipeline_eq_of_none (some g) p rid hl.1]
    refine ⟨rfl, ?_, ?_, rfl, ?_⟩
    · show some (run_assembler (some g) rid p.project_id
        (execLoop (some g) rid p.project_id 0 p.global_context p.steps).ctx
        (execLoop (some g) rid p.project_id 0 p.global_context p.steps).outs).assembled_code
        = some ""
      rw [ha]
    · show (run_assembler (some g) rid p.project_id
        (execLoop (some g) rid p.project_id 0 p.global_context p.steps).ctx
        (execLoop (some g) rid p.project_id 0 p.global_context p.steps).outs).artifacts
        = []
      rw [ha]
    · show runUpdates ((DbOp.updateRun rid "RUNNING"
        :: (execLoop (some g) rid p.project_id 0 p.global_context p.steps).ops)
        ++ [DbOp.updateRun rid "SUCCESS"]) = _
      rw [runUpdates_append, runUpdates_update, hl.2.2.1]
      rfl

/-- A backend that raises on every call, used by the C5 witness. -/
def wFailGen : GenFun := fun _ _ _ _ => .error "boom"

def wPipeEmpty : OrchestrationPipeline := { project_id := 1, name := "t", steps := [] }

theorem c5_assembler_error_nonfatal_witness :
    (wFailGen "CodeLlama-7b" (build_assembler_prompt []) (.vint 2048) (.vfloat (3 / 10))
        = .error "boom"
      ∧ run_assembler (some wFailGen) 7 1 [] []
          = { assembled_code := "", artifacts := [], error := some "boom" })
    ∧ ((∀ s ∈ wPipeEmpty.steps, knownModel s.model_type = true)
      ∧ wFailGen "CodeLlama-7b"
          (build_assembler_prompt
            (execLoop (some wFailGen) 7 wPipeEmpty.project_id 0
              wPipeEmpty.global_context wPipeEmpty.steps).outs)
          (.vint 2048) (.vfloat (3 / 10)) = .error "boom"
      ∧ ((execute_pipeline (some wFailGen) wPipeEmpty 7).status = "SUCCESS"
        ∧ (execute_pipeline (some wFailGen) wPipeEmpty 7).assembled_code = some ""
        ∧ (execute_pipeline (some wFailGen) wPipeEmpty 7).final_artifacts = []
        ∧ (execute_pipeline (some wFailGen) wPipeEmpty 7).error = none
        ∧ runUpdates (execute_pipeline (some wFailGen) wPipeEmpty 7).ops
            = [(7, "RUNNING"), (7, "SUCCESS")])) :=
  ⟨⟨rfl, c5_assembler_error_nonfatal.1 wFailGen 7 1 [] [] "boom" rfl⟩,
    ⟨by decide, rfl,
      c5_assembler_error_nonfatal.2 wFailGen wPipeEmpty 7 "boom" (by decide) rfl⟩⟩

/-- The hf_manager model name each handler passes to generate. -/
def modelNameOf (m : String) : String :=
  if m = "CodeLlama" then "CodeLlama-7b"
  else if m = "CodeGemma" then "CodeGemma-7b"
  else if m = "T5Gemma" then "T5-Gemma"
  else ""

theorem string_shift_assoc (a b T : String) :
    (a ++ b) ++ T ++ "..." = a ++ b ++ (T ++ "...") := by
  rw [String.append_assoc]

/-- C8: a step on a known model executed with no backend configured, or
whose backend call raises, does not propagate the error: the executor
returns SUCCESS and its result text contains the literal substring
"Placeholder response to:" followed by the truncated enriched prompt;
and a pipeline of such steps completes with status SUCCESS. -/
theorem c8_placeholder_fallback :
    (∀ (hf : Option GenFun) (step : StepInput) (ctx : Ctx),
        knownModel step.model_type = true →
        (hf = none ∨ ∃ g e, hf = some g
          ∧ g (modelNameOf step.model_type) (inject_context step.prompt ctx)
              (pget step.parameters "max_tokens" (.vint 512))
              (pget step.parameters "temperature" (.vfloat (7 / 10))) = .error e) →
        (execute_step hf step ctx).status = .SUCCESS
        ∧ ∃ pre, (execute_step hf step ctx).result
            = some (pre ++ "Placeholder response to: "
              ++ ((inject_context step.prompt ctx).take 100 ++ "...")))
    ∧ (∀ (p : OrchestrationPipeline) (rid : Nat),
        (∀ s ∈ p.steps, knownModel s.model_type = true) →
        (execute_pipeline none p rid).status = "SUCCESS") := by
  constructor
  · intro hf step ctx hknown hfb
    refine ⟨execute_step_success hf step ctx hknown, ?_⟩
    have h3 : step.model_type = "CodeLlama" ∨ step.model_type = "CodeGemma"
        ∨ step.model_type = "T5Gemma" := by
      simpa [knownModel, or_assoc] using hknown
    rcases h3 with h1 | h1 | h1
    · have hres : (execute_step hf step ctx).result
          = some (execute_code_llama hf (inject_context step.prompt ctx) step.parameters) := by
        unfold execute_step
        simp [h1]
      refine ⟨"[CodeLlama] ", ?_⟩
      rw [hres]
      have hph : execute_code_llama hf (inject_context step.prompt ctx) step.parameters
          = "[CodeLlama] Placeholder response to: "
            ++ (inject_context step.prompt ctx).take 100 ++ "..." := by
        rcases hfb with rfl | ⟨g, e, rfl, hg⟩
        · rfl
        · rw [h1] at hg
          unfold execute_code_llama
          simp only [show modelNameOf "CodeLlama" = "CodeLlama-7b" from rfl] at hg
          simp only [hg]
      rw [hph,
        show ("[CodeLlama] Placeholder response to: " : String)
          = "[CodeLlama] " ++ "Placeholder response to: " by decide,
        string_shift_assoc]
    · have hres : (execute_step hf step ctx).result
          = some (execute_code_gemma hf (inject_context step.prompt ctx) step.parameters) := by
        unfold execute_step
        simp [h1]
      refine ⟨"[CodeGemma] ", ?_⟩
      rw [hres]
      have hph : execute_code_gemma hf (inject_context step.prompt ctx) step.parameters
          = "[CodeGemma] Placeholder response to: "
            ++ (inject_context step.prompt ctx).take 100 ++ "..." := by
        rcases hfb with rfl | ⟨g, e, rfl, hg⟩
        · rfl
        · rw [h1] at hg
          unfold execute_code_gemma
          simp only [show modelNameOf "CodeGemma" = "CodeGemma-7b" from rfl] at hg
          simp only [hg]
      rw [hph,
        show ("[CodeGemma] Placeholder response to: " : String)
          = "[CodeGemma] " ++ "Placeholder response to: " by decide,
        string_shift_assoc]
    · have hres : (execute_step hf step ctx).result
          = some (execute_t5_gemma hf (inject_context step.prompt ctx) step.parameters) := by
        unfold execute_step
        simp [h1]
      refine ⟨"[T5Gemma] ", ?_⟩
      rw [hres]
      have hph : execute_t5_gemma hf (inject_context step.prompt ctx) step.parameters
          = "[T5Gemma] Placeholder response to: "
            ++ (inject_context step.prompt ctx).take 100 ++ "..." := by
        rcases hfb with rfl | ⟨g, e, rfl, hg⟩
        · rfl
        · rw [h1] at hg
          unfold execute_t5_gemma
          simp only [show modelNameOf "T5Gemma" = "T5-Gemma" from rfl] at hg
          simp only [hg]
      rw [hph,
        show ("[T5Gemma] Placeholder response to: " : String)
          = "[T5Gemma] " ++ "Placeholder response to: " by decide,
        string_shift_assoc]
  · intro p rid hall
    have hl := execLoop_all_known none rid p.project_id p.steps 0 p.global_context hall
    rw [execute_pipeline_eq_of_none none p rid hl.1]

theorem c8_placeholder_fallback_witness :
    (knownModel wStepGood.model_type = true
      ∧ ((execute_step none wStepGood []).status = .SUCCESS
        ∧ ∃ pre, (execute_step none wStepGood []).result
            = some (pre ++ "Placeholder response to: "
              ++ ((inject_context wStepGood.prompt []).take 100 ++ "..."))))
    ∧ ((∀ s ∈ wPipeGood.steps, knownModel s.model_type = true)
      ∧ (execute_pipeline none wPipeGood 8).status = "SUCCESS") :=
  ⟨⟨by decide, c8_placeholder_fallback.1 none wStepGood [] (by decide) (Or.inl rfl)⟩,
    ⟨by decide, c8_placeholder_fallback.2 wPipeGood 8 (by decide)⟩⟩

/-- C9: the context injector is a pure function of (prompt, context): it
equals the spec-side serialization — the prompt, the fixed header, then
one "# key: value" line per pair with the value string-converted and
truncated to 200 characters, joined by newlines — and repeated calls on
the same input are byte-identical (purity is inherent in the functional
model: the second conjunct records it). -/
theorem c9_inject_context_pure :
    (∀ (prompt : String) (context : Ctx),
        inject_context prompt context = inject_context_spec prompt context)
    ∧ (∀ (prompt : String) (context : Ctx),
        inject_context prompt context = inject_context prompt context) :=
  ⟨fun _ _ => rfl, fun _ _ => rfl⟩

theorem countP_status_split :
    ∀ (l : List StepOutput),
      (∀ o ∈ l, o.status = .SUCCESS ∨ o.status = .FAILED) →
      l.countP (fun s => decide (s.status = .SUCCESS))
        + l.countP (fun s => decide (s.status = .FAILED)) = l.length := by
  intro l
  induction l with
  | nil => intro _; rfl
  | cons o l ih =>
    intro h
    have hl := ih (fun x hx => h x (by simp [hx]))
    rcases h o (by simp) with hS | hF
    · simp [List.countP_cons, hS]
      omega
    · simp [List.countP_cons, hF]
      omega

/-- C10: the step executor only ever produces SUCCESS or FAILED results
(never SKIPPED, PENDING or RUNNING), so for any run history recorded by
execute_pipeline, get_run_summary satisfies successful_steps +
failed_steps = total_steps; and for a run id with no recorded history it
returns the zeroed summary rather than an error. -/
theorem c10_step_statuses_and_summary :
    (∀ (hf : Option GenFun) (step : StepInput) (ctx : Ctx),
        (execute_step hf step ctx).status = .SUCCESS
          ∨ (execute_step hf step ctx).status = .FAILED)
    ∧ (∀ (hf : Option GenFun) (p : OrchestrationPipeline) (rid : Nat)
          (hist : List (Nat × List StepOutput)),
        (get_run_summary ((rid, (execute_pipeline hf p rid).steps) :: hist) rid).successful_steps
          + (get_run_summary ((rid, (execute_pipeline hf p rid).steps) :: hist) rid).failed_steps
          = (get_run_summary ((rid, (execute_pipeline hf p rid).steps) :: hist) rid).total_steps)
    ∧ (∀ (hist : List (Nat × List StepOutput)) (rid : Nat), hist.lookup rid = none →
        get_run_summary hist rid
          = { run_id := rid, total_steps := 0, successful_steps := 0, failed_steps := 0,
              total_execution_time := 0, steps := [] }) := by
  refine ⟨fun hf step ctx => execute_step_status_or hf step ctx, ?_, ?_⟩
  · intro hf p rid hist
    have hsteps : (execute_pipeline hf p rid).steps
        = (execLoop hf rid p.project_id 0 p.global_context p.steps).outs := by
      cases hsome : (execLoop hf rid p.project_id 0 p.global_context p.steps).failed with
      | none => rw [execute_pipeline_eq_of_none hf p rid hsome]
      | some pr =>
        obtain ⟨n, e⟩ := pr
        rw [execute_pipeline_eq_of_some hf p rid n e hsome]
    have hhist : get_step_history ((rid, (execute_pipeline hf p rid).steps) :: hist) rid
        = (execute_pipeline hf p rid).steps := by
      simp [get_step_history, List.lookup]
    show (get_step_history ((rid, (execute_pipeline hf p rid).steps) :: hist) rid).countP
        (fun s => decide (s.status = .SUCCESS))
      + (get_step_history ((rid, (execute_pipeline hf p rid).steps) :: hist) rid).countP
        (fun s => decide (s.status = .FAILED))
      = (get_step_history ((rid, (execute_pipeline hf p rid).steps) :: hist) rid).length
    rw [hhist, hsteps]
    exact countP_status_split _
      (execLoop_outs_status hf rid p.project_id p.steps 0 p.global_context)
  · intro hist rid h
    unfold get_run_summary get_step_history
    rw [h]
    rfl

theorem c10_step_statuses_and_summary_witness :
    ((execute_step none wStepGood []).status = .SUCCESS
        ∨ (execute_step none wStepGood []).status = .FAILED)
    ∧ ((get_run_summary [(3, (execute_pipeline none wPipeFail 3).steps)] 3).successful_steps
        + (get_run_summary [(3, (execute_pipeline none wPipeFail 3).steps)] 3).failed_steps
        = (get_run_summary [(3, (execute_pipeline none wPipeFail 3).steps)] 3).total_steps)
    ∧ (([] : List (Nat × List StepOutput)).lookup 4 = none
      ∧ get_run_summary [] 4
          = { run_id := 4, total_steps := 0, successful_steps := 0, failed_steps := 0,
              total_execution_time := 0, steps := [] }) :=
  ⟨c10_step_statuses_and_summary.1 none wStepGood [],
    c10_step_statuses_and_summary.2.1 none wPipeFail 3 [],
    rfl, c10_step_statuses_and_summary.2.2 [] 4 rfl⟩

/-! ## Run-status persistence (C6) -/

theorem applyDbOps_eq_runUpdates (now : Nat) :
    ∀ (ops : List DbOp) (run : RunRow),
      applyDbOps now run ops
        = (runUpdates ops).foldl
            (fun r q => if r.id = q.1 then update_run now q.2 r else r) run := by
  intro ops
  induction ops with
  | nil => intro run; rfl
  | cons op l ih =>
    intro run
    cases op with
    | updateRun rid st =>
      show applyDbOps now (applyDbOp now run (DbOp.updateRun rid st)) l = _
      rw [runUpdates_update]
      rw [ih]
      rfl
    | saveArtifact a b art =>
      show applyDbOps now (applyDbOp now run (DbOp.saveArtifact a b art)) l = _
      rw [show runUpdates (DbOp.saveArtifact a b art :: l) = runUpdates l from by
        simp [runUpdates, List.filterMap_cons]]
      exact ih run

/-- C6 counterexample, as the claim is stated: update_run_status is one
of the system's status-update operations (exposed by PUT /runs/run_id,
whose finished flag defaults to False), and one call on a fresh PENDING
run sets status SUCCESS while leaving finished_at null; the converse
violation (finished_at set while RUNNING) is one call away too. -/
theorem c6_counterexample :
    ((update_run_status 1 (create_run 0 1 1 "PENDING" []) "SUCCESS" false).status = "SUCCESS"
      ∧ (update_run_status 1 (create_run 0 1 1 "PENDING" []) "SUCCESS" false).finished_at
          = none)
    ∧ ((update_run_status 1 (create_run 0 1 1 "PENDING" []) "RUNNING" true).status = "RUNNING"
      ∧ (update_run_status 1 (create_run 0 1 1 "PENDING" []) "RUNNING" true).finished_at
          = some 1) :=
  ⟨⟨rfl, rfl⟩, rfl, rfl⟩

/-- C6 amended: the orchestrator's _update_run, applied to a run whose
finished_at is still null, sets finished_at exactly when the new status
is SUCCESS or FAILED, and a run driven by execute_pipeline (created with
finished_at null, updated only through the pipeline's status writes)
ends with finished_at non-null iff its status is SUCCESS or FAILED;
ProjectService.update_run_status, however, sets finished_at exactly when
its caller-supplied finished flag is true, independent of the status, so
the if-and-only-if invariant is not enforced by that operation. -/
theorem c6_finished_at_amended :
    (∀ (now : Nat) (st : String) (run : RunRow), run.finished_at = none →
        ((update_run now st run).finished_at ≠ none ↔ (st = "SUCCESS" ∨ st = "FAILED")))
    ∧ (∀ (now : Nat) (run : RunRow) (st : String) (fin : Bool),
        (update_run_status now run st fin).finished_at
          = if fin then some now else run.finished_at)
    ∧ (∀ (hf : Option GenFun) (p : OrchestrationPipeline) (rid now : Nat) (run : RunRow),
        run.id = rid → run.finished_at = none →
        ((applyDbOps now run (execute_pipeline hf p rid).ops).finished_at ≠ none
          ↔ ((applyDbOps now run (execute_pipeline hf p rid).ops).status = "SUCCESS"
            ∨ (applyDbOps now run (execute_pipeline hf p rid).ops).status = "FAILED"))) := by
  refine ⟨?_, fun now run st fin => rfl, ?_⟩
  · intro now st run hfin
    unfold update_run
    by_cases h : st = "SUCCESS" ∨ st = "FAILED"
    · simp [h]
    · simp [h, hfin]
  · intro hf p rid now run hid hfin
    rcases execLoop_runUpdates hf rid p.project_id p.steps 0 p.global_context with
      ⟨hupd, hnone⟩ | ⟨hupd, hsome⟩
    · rw [execute_pipeline_eq_of_none hf p rid hnone]
      rw [applyDbOps_eq_runUpdates]
      rw [show runUpdates ((DbOp.updateRun rid "RUNNING"
          :: (execLoop hf rid p.project_id 0 p.global_context p.steps).ops)
          ++ [DbOp.updateRun rid "SUCCESS"]) = [(rid, "RUNNING"), (rid, "SUCCESS")] from by
        rw [runUpdates_append, runUpdates_update, hupd]
        rfl]
      simp [List.foldl_cons, hid, update_run]
    · cases hs2 : (execLoop hf rid p.project_id 0 p.global_context p.steps).failed with
      | none => rw [hs2] at hsome; simp at hsome
      | some pr =>
        obtain ⟨n, e⟩ := pr
        rw [execute_pipeline_eq_of_some hf p rid n e hs2]
        rw [applyDbOps_eq_runUpdates]
        rw [show runUpdates (DbOp.updateRun rid "RUNNING"
            :: (execLoop hf rid p.project_id 0 p.global_context p.steps).ops)
            = [(rid, "RUNNING"), (rid, "FAILED")] from by
          rw [runUpdates_update, hupd]]
        simp [List.foldl_cons, hid, update_run]

theorem c6_finished_at_amended_witness :
    ((create_run 0 1 1 "PENDING" []).finished_at = none
      ∧ ((update_run 5 "SUCCESS" (create_run 0 1 1 "PENDING" [])).finished_at ≠ none
        ↔ (("SUCCESS" : String) = "SUCCESS" ∨ ("SUCCESS" : String) = "FAILED")))
    ∧ (update_run_status 5 (create_run 0 1 1 "PENDING" []) "RUNNING" true).finished_at
        = (if true then some 5 else (create_run 0 1 1 "PENDING" []).finished_at)
    ∧ ((create_run 0 9 1 "PENDING" []).id = 9
      ∧ (create_run 0 9 1 "PENDING" []).finished_at = none
      ∧ ((applyDbOps 5 (create_run 0 9 1 "PENDING" [])
            (execute_pipeline none wPipeGood 9).ops).finished_at ≠ none
        ↔ ((applyDbOps 5 (create_run 0 9 1 "PENDING" [])
              (execute_pipeline none wPipeGood 9).ops).status = "SUCCESS"
          ∨ (applyDbOps 5 (create_run 0 9 1 "PENDING" [])
              (execute_pipeline none wPipeGood 9).ops).status = "FAILED"))) :=
  ⟨⟨rfl, c6_finished_at_amended.1 5 "SUCCESS" (create_run 0 1 1 "PENDING" []) rfl⟩,
    c6_finished_at_amended.2.1 5 (create_run 0 1 1 "PENDING" []) "RUNNING" true,
    ⟨rfl, rfl,
      c6_finished_at_amended.2.2 none wPipeGood 9 5 (create_run 0 9 1 "PENDING" []) rfl rfl⟩⟩

/-! ## Cascade delete (C7) -/

/-- A database with one project (id 1) carrying one context, one run
(id 10) and one artifact — the concrete failing input for the delete
cascade. -/
def c7db : Db :=
  { projects := [{ id := 1, name := "p" }],
    contexts := [{ id := 5, project_id := 1, key := "k" }],
    runs := [{ id := 10, project_id := some 1 }],
    artifacts := [{ id := 7, project_id := some 1, run_id := some 10, name := "a" }] }

/-- C7: evaluation of the delete operations at the failing input.  As
written, delete_project and delete_run raise AttributeError for any
existing row (the cascade calls .delete on a ScalarResult) instead of
cascading and returning True; the missing-row paths still return False;
and the intended cascade — modelled from the code's own docstrings and
unit tests — leaves zero rows under every dependent query. -/
theorem c7_delete_cascade_eval :
    delete_project c7db 1 = Except.error scalarResultDeleteError
    ∧ delete_run c7db 10 = Except.error scalarResultDeleteError
    ∧ delete_project c7db 99 = Except.ok (c7db, false)
    ∧ delete_run c7db 99 = Except.ok (c7db, false)
    ∧ (delete_project_cascade c7db 1).2 = true
    ∧ list_context_by_project (delete_project_cascade c7db 1).1 1 = []
    ∧ list_runs_by_project (delete_project_cascade c7db 1).1 1 = []
    ∧ list_artifacts_by_project (delete_project_cascade c7db 1).1 1 = []
    ∧ (delete_run_cascade c7db 10).2 = true
    ∧ list_artifacts_by_run (delete_run_cascade c7db 10).1 10 = [] :=
  ⟨rfl, rfl, rfl, rfl, rfl, rfl, rfl, rfl, rfl, rfl⟩

end LangFlowB
